import Mathlib

/-!
Verification of the FreeBuds SPP battery-bridge core: the CRC-16/XMODEM
checksum engine, the packet codec (encode in `send_packet`, decode in
`receive_packet`), the battery TLV parser, the advertisement battery
heuristic, and the address normalizer/matcher.  Bytes are modelled as `Nat`
(with explicit bounds where the source's `struct.pack` enforces them), byte
strings as `List Nat`, and the socket as an explicit session state with a
list of sent packets and an incoming buffer of the bytes that will arrive
before timeout or stream end.
-/

namespace FreeBuds

/-! ## Checksum engine (`crc16_xmodem` in huawei_spp.py) -/

/-- One shift round of the CRC loop: `crc = (crc << 1) ^ 0x1021` when the
top bit is set, else `crc <<= 1`; then `crc &= 0xFFFF`. -/
def crcRound (crc : Nat) : Nat :=
  (if crc &&& 0x8000 ≠ 0 then (crc <<< 1) ^^^ 0x1021 else crc <<< 1) &&& 0xFFFF

/-- Processing of one input byte: `crc ^= byte << 8` followed by
`for _ in range(8)` shift rounds. -/
def crcByte (crc b : Nat) : Nat :=
  (List.range 8).foldl (fun c _ => crcRound c) (crc ^^^ (b <<< 8))

/-- `crc16_xmodem(data)`: fold the bytes from register `0x0000`, then
`struct.pack(">H", crc)` (two big-endian bytes; the register is kept below
`0x10000` by the masking in every round). -/
def crc16_xmodem (data : List Nat) : List Nat :=
  let crc := data.foldl crcByte 0x0000
  [crc / 256, crc % 256]

/-- Spec-side CRC round, stated from the spec's words: if the top bit of the
register is set, shift left and XOR with the polynomial `0x1021`, else shift
left; mask to 16 bits after each round. -/
def crcSpecRound (r : Nat) : Nat :=
  if r &&& 0x8000 ≠ 0 then ((r <<< 1) ^^^ 0x1021) &&& 0xFFFF else (r <<< 1) &&& 0xFFFF

/-- Spec-side per-byte step: XOR the byte into the high byte of the register,
then perform 8 rounds. -/
def crcSpecByte (r b : Nat) : Nat := crcSpecRound^[8] (r ^^^ (b <<< 8))

/-- Spec-side CRC-16/XMODEM register value: initial register `0x0000`,
process each input byte in order. -/
def crc16_spec (data : List Nat) : Nat := data.foldl crcSpecByte 0


/-! ## Packet codec and command session (`HuaweiSPPClient` in huawei_spp.py) -/

/-- Failure modes of the session's packet operations.  `struct.pack("B", x)`
raises when `x > 255`: on a field's type byte this is `badFieldType`, on a
field value's length byte it is `fieldTooLarge`; `struct.pack(">H", x)`
raises `lengthOverflow` when the packet length exceeds `0xFFFF`;
`notConnected` is the `raise Exception("Not connected")` guard. -/
inductive PackError where
  | fieldTooLarge
  | badFieldType
  | lengthOverflow
  | notConnected
  deriving DecidableEq, Repr

/-- The payload-construction loop of `send_packet`: for each `(p_type,
p_value)` append `struct.pack("B", p_type) + struct.pack("B", len(p_value)) +
p_value`, failing at the first field whose type or value length does not fit
a byte. -/
def buildPayload : List (Nat × List Nat) → Except PackError (List Nat)
  | [] => .ok []
  | (t, v) :: rest =>
    if t ≤ 255 then
      if v.length ≤ 255 then
        match buildPayload rest with
        | .ok tail => .ok ([t, v.length] ++ v ++ tail)
        | .error e => .error e
      else .error .fieldTooLarge
    else .error .badFieldType

/-- `struct.pack(">H", n)` for `n ≤ 0xFFFF`: two big-endian bytes. -/
def beU16 (n : Nat) : List Nat := [n / 256, n % 256]

/-- The packet-building part of `send_packet`: payload from the params,
`length = 1 + 2 + len(payload)`, packet
`0x5A + length(>H) + 0x00 + cmd_id + payload`, then the CRC appended. -/
def encodePacket (cmd_id : List Nat) (params : List (Nat × List Nat)) :
    Except PackError (List Nat) :=
  match buildPayload params with
  | .error e => .error e
  | .ok payload =>
    let length := 1 + 2 + payload.length
    if length ≤ 65535 then
      let packet := [0x5A] ++ beU16 length ++ [0x00] ++ cmd_id ++ payload
      .ok (packet ++ crc16_xmodem packet)
    else .error .lengthOverflow

/-- Session state: the `connected` flag, the packets written to the socket so
far, and the bytes the socket will deliver before a timeout or stream end
(`_read_exact` returns short data on either). -/
structure SessionState where
  connected : Bool
  sent : List (List Nat)
  inbuf : List Nat
  deriving DecidableEq, Repr

/-- `send_packet`: raises `Not connected` when the flag is down, otherwise
builds the packet (which can fail on oversized fields) and only then writes
it to the socket. -/
def send_packet (st : SessionState) (cmd_id : List Nat)
    (params : List (Nat × List Nat)) : Except PackError Unit × SessionState :=
  if st.connected = false then (.error .notConnected, st)
  else
    match encodePacket cmd_id params with
    | .error e => (.error e, st)
    | .ok pkt => (.ok (), { st with sent := st.sent ++ [pkt] })

/-- `receive_packet` on the bytes available from the stream: read 4 header
bytes (`None` when short or when the first is not `0x5A`), decode the
big-endian declared length, then read `length - 1 + 2` more bytes (`None`
when short; in Python's integer arithmetic `length - 1 + 2 = length + 1`,
written here as `length + 2 - 1` so the subtraction cannot truncate at
`length = 0`).  On a complete read the whole packet is returned. -/
def receive_packet (buf : List Nat) : Option (List Nat) :=
  let header := buf.take 4
  if header.length < 4 ∨ header.getD 0 0 ≠ 0x5A then none
  else
    let length := header.getD 1 0 * 256 + header.getD 2 0
    let remaining_len := length + 2 - 1
    let body_crc := (buf.drop 4).take remaining_len
    if body_crc.length < remaining_len then none
    else some (header ++ body_crc)

/-- Bytes consumed from the stream by one `receive_packet` call. -/
def receive_consumed (buf : List Nat) : Nat :=
  let header := buf.take 4
  if header.length < 4 ∨ header.getD 0 0 ≠ 0x5A then 4
  else 4 + (header.getD 1 0 * 256 + header.getD 2 0 + 2 - 1)

/-- Stateful `receive_packet`: raises `Not connected` when the flag is down,
otherwise reads from the session's incoming buffer. -/
def receive_packetS (st : SessionState) :
    Except PackError (Option (List Nat)) × SessionState :=
  if st.connected = false then (.error .notConnected, st)
  else (.ok (receive_packet st.inbuf), { st with inbuf := st.inbuf.drop (receive_consumed st.inbuf) })

/-- Spec-side serialization of one TLV field: `type byte + length byte +
value bytes`. -/
def serializeField (f : Nat × List Nat) : List Nat := [f.1, f.2.length] ++ f.2

/-- Spec-side serialization of a field sequence: the concatenation of the
serialized fields, in order. -/
def serializeFields : List (Nat × List Nat) → List Nat
  | [] => []
  | f :: rest => serializeField f ++ serializeFields rest

/-- The generic TLV walk shared by the decode side (the loop of
`parse_battery_response`, collecting the raw fields instead of interpreting
them): starting at `idx`, while `idx < len(data) - 2` (the CRC bytes are
excluded) read `t = data[idx]`, `l = data[idx+1]`,
`v = data[idx+2 : idx+2+l]` and advance by `2 + l`. -/
def tlvWalk (data : List Nat) (idx : Nat) : List (Nat × List Nat) :=
  if h : idx < data.length - 2 then
    let t := data.getD idx 0
    let l := data.getD (idx + 1) 0
    let v := (data.drop (idx + 2)).take l
    (t, v) :: tlvWalk data (idx + 2 + l)
  else []
  termination_by data.length - idx
  decreasing_by simp_wf; omega

/-! ## Battery response parsing (`parse_battery_response` in huawei_spp.py) -/

/-- The dictionary built by `parse_battery_response`: the keys `global`,
`left`, `right`, `case` (the last named `caseBox` here because `case` is a
Lean keyword), each absent until assigned. -/
structure BatteryRes where
  globalLevel : Option Nat := none
  left : Option Nat := none
  right : Option Nat := none
  caseBox : Option Nat := none
  deriving DecidableEq, Repr

/-- `int.from_bytes(v, 'big')`. -/
def beNat (v : List Nat) : Nat := v.foldl (fun a b => a * 256 + b) 0

/-- The TLV loop of `parse_battery_response`: while `idx < len(data) - 2`,
read `t = data[idx]`, `l = data[idx+1]`, `v = data[idx+2 : idx+2+l]`; type 1
sets `global` to the big-endian integer of `v`, type 2 with `len(v) >= 3`
sets `left, right, case` from `v[0], v[1], v[2]`; advance by `2 + l`. -/
def parseBatteryLoop (data : List Nat) (idx : Nat) (res : BatteryRes) : BatteryRes :=
  if h : idx < data.length - 2 then
    let t := data.getD idx 0
    let l := data.getD (idx + 1) 0
    let v := (data.drop (idx + 2)).take l
    let res1 := if t = 1 then { res with globalLevel := some (beNat v) } else res
    let res2 :=
      if t = 2 then
        if v.length ≥ 3 then
          { res1 with left := some (v.getD 0 0), right := some (v.getD 1 0),
                      caseBox := some (v.getD 2 0) }
        else res1
      else res1
    parseBatteryLoop data (idx + 2 + l) res2
  else res
  termination_by data.length - idx
  decreasing_by simp_wf; omega

/-- `parse_battery_response(data)`: `None` when `len(data) < 8`, otherwise
the dictionary accumulated by the TLV loop starting at index 6. -/
def parse_battery_response (data : List Nat) : Option BatteryRes :=
  if data.length < 8 then none
  else some (parseBatteryLoop data 6 {})

/-- Spec-side interpretation of one decoded TLV field into the battery
reading: type 1 yields the aggregate value (big-endian over the value
bytes), type 2 with a value of at least 3 bytes yields left/right/case,
anything else is ignored. -/
def batteryStep (res : BatteryRes) (f : Nat × List Nat) : BatteryRes :=
  if f.1 = 1 then { res with globalLevel := some (beNat f.2) }
  else if f.1 = 2 ∧ f.2.length ≥ 3 then
    { res with left := some (f.2.getD 0 0), right := some (f.2.getD 1 0),
               caseBox := some (f.2.getD 2 0) }
  else res

/-- `parse_battery_response` with every list index access made explicit
(`List.get?` instead of Python's indexing), failing with `none` if any index
were out of range: used to state that the parser never makes an
out-of-range access. -/
def parseBatteryLoopChecked (data : List Nat) (idx : Nat) (res : BatteryRes) :
    Option BatteryRes :=
  if _h : idx < data.length - 2 then
    match data.get? idx, data.get? (idx + 1) with
    | some t, some l =>
      let v := (data.drop (idx + 2)).take l
      let res1 := if t = 1 then { res with globalLevel := some (beNat v) } else res
      match
        (if t = 2 then
          if v.length ≥ 3 then
            match v.get? 0, v.get? 1, v.get? 2 with
            | some a, some b, some c =>
              some { res1 with left := some a, right := some b, caseBox := some c }
            | _, _, _ => none
          else some res1
        else some res1) with
      | some res2 => parseBatteryLoopChecked data (idx + 2 + l) res2
      | none => none
    | _, _ => none
  else some res
  termination_by data.length - idx
  decreasing_by simp_wf; omega

/-- Checked variant of `parse_battery_response`. -/
def parseBatteryChecked (data : List Nat) : Option (Option BatteryRes) :=
  if data.length < 8 then some none
  else (parseBatteryLoopChecked data 6 {}).map some

/-! ## Broadcast battery heuristic (`parse_battery_from_adv` in main.py) -/

/-- A plausible battery byte: in range 0–100 (the lower bound is vacuous for
a byte) or exactly 255. -/
def validBatteryVal (b : Nat) : Bool := b ≤ 100 || b == 255

/-- The acceptance test of one 3-byte window `(l, r, c)`:
`valid_l and valid_r and valid_c and has_value`. -/
def acceptWindow (l r c : Nat) : Bool :=
  validBatteryVal l && validBatteryVal r && validBatteryVal c
    && (l ≤ 100 || r ≤ 100 || c ≤ 100)

/-- The sliding-window loop `for i in range(len(data_bytes) - 2)`: at each
`i` test the window `(data[i], data[i+1], data[i+2])`; an accepted window is
returned only when the company id is `0x0156` or `0x025D`, otherwise the
scan continues. -/
def findWindow (cid : Nat) (d : List Nat) (i : Nat) : Option (Nat × Nat × Nat) :=
  if h : i < d.length - 2 then
    let l := d.getD i 0
    let r := d.getD (i + 1) 0
    let c := d.getD (i + 2) 0
    if acceptWindow l r c then
      if cid = 0x0156 ∨ cid = 0x025D then some (l, r, c)
      else findWindow cid d (i + 1)
    else findWindow cid d (i + 1)
  else none
  termination_by d.length - i
  decreasing_by simp_wf; omega

/-- `parse_battery_from_adv`: iterate the manufacturer-data entries in
order; an entry whose payload is shorter than 7 bytes is skipped
(`continue`); otherwise its windows are scanned, and the first hit is
returned.  The `cid == 0x004C` branch of the source is a `pass` and
contributes nothing.  An empty map returns `None`. -/
def parse_battery_from_adv : List (Nat × List Nat) → Option (Nat × Nat × Nat)
  | [] => none
  | (cid, data) :: rest =>
    if data.length < 7 then parse_battery_from_adv rest
    else
      match findWindow cid data 0 with
      | some w => some w
      | none => parse_battery_from_adv rest

/-- Spec-side description of the window scan: the first index `i` (lowest
index wins) whose window is accepted, as a `(l, r, c)` triple. -/
def firstAcceptedWindow (d : List Nat) : Option (Nat × Nat × Nat) :=
  (List.range (d.length - 2)).findSome? fun i =>
    if acceptWindow (d.getD i 0) (d.getD (i + 1) 0) (d.getD (i + 2) 0) then
      some (d.getD i 0, d.getD (i + 1) 0, d.getD (i + 2) 0)
    else none

/-- Spec-side acceptance rule for a window `(a, b, c)`, stated from the
spec's words: every component is in range 0–100 or exactly 255, and at
least one of the three is in 0–100. -/
def windowAcceptable (a b c : Nat) : Prop :=
  ((a ≤ 100 ∨ a = 255) ∧ (b ≤ 100 ∨ b = 255) ∧ (c ≤ 100 ∨ c = 255))
    ∧ (a ≤ 100 ∨ b ≤ 100 ∨ c ≤ 100)

/-! ## Device identity matcher (`normalize_address` and the address check of
`is_target_device` in main.py) -/

/-- Python's `str.replace(":", "").replace("-", "")` character filter. -/
def notSeparator (c : Char) : Bool := c ≠ ':' && c ≠ '-'

/-- `address.replace(":", "").replace("-", "").upper()`. -/
def cleanAddress (a : List Char) : List Char :=
  (a.filter notSeparator).map Char.toUpper

/-- `[clean_addr[i:i+2] for i in range(0, 12, 2)]`. -/
def chunk2 (l : List Char) : List (List Char) :=
  [0, 2, 4, 6, 8, 10].map fun i => (l.drop i).take 2

/-- `sep.join(chunks)`. -/
def joinSep (sep : Char) (chunks : List (List Char)) : List Char :=
  List.intercalate [sep] chunks

/-- `normalize_address(address)`: the colon form, the hyphen form and the
bare cleaned hex form. -/
def normalize_address (a : List Char) : List (List Char) :=
  let clean := cleanAddress a
  [joinSep ':' (chunk2 clean), joinSep '-' (chunk2 clean), clean]

/-- The address check of `is_target_device`:
`any(addr in normalize_address(device.address) for addr in DEVICE_ADDRESSES)`
— each configured address string is compared raw against the three
normalized forms of the device address. -/
def addressMatches (configured : List (List Char)) (devAddr : List Char) : Bool :=
  configured.any fun addr => (normalize_address devAddr).contains addr

/-- The hexadecimal digit characters. -/
def hexChars : List Char := "0123456789abcdefABCDEF".toList

/-- The uppercase hexadecimal digit characters (the image of `hexChars`
under `Char.toUpper`). -/
def upperHexChars : List Char := "0123456789ABCDEF".toList

/-! ## Checksum engine theorems -/

theorem crcRound_eq_spec : crcRound = crcSpecRound := by
  funext c
  unfold crcRound crcSpecRound
  split <;> rfl

theorem foldl_const_iterate {α : Type} (g : Nat → Nat) (l : List α) (x : Nat) :
    l.foldl (fun c _ => g c) x = g^[l.length] x := by
  induction l generalizing x with
  | nil => rfl
  | cons a l ih => simp [List.foldl, ih, Function.iterate_succ_apply]

theorem crcByte_eq_spec (c b : Nat) : crcByte c b = crcSpecByte c b := by
  unfold crcByte crcSpecByte
  rw [crcRound_eq_spec, foldl_const_iterate crcSpecRound (List.range 8)]
  simp

set_option maxRecDepth 4000 in
/-- C1: for every byte sequence the checksum function returns the two
big-endian bytes of the CRC-16/XMODEM register (polynomial `0x1021`, initial
register `0x0000`, byte XOR-ed into the high byte, 8 masked shift rounds per
byte); the empty input gives `0x0000` and the ASCII bytes of `"123456789"`
give the published XMODEM check value `0x31C3`. -/
theorem crc16_xmodem_correct :
    crc16_xmodem [] = [0x00, 0x00]
  ∧ crc16_xmodem [0x31, 0x32, 0x33, 0x34, 0x35, 0x36, 0x37, 0x38, 0x39]
      = [0x31, 0xC3]
  ∧ ∀ data : List Nat,
      crc16_xmodem data = [crc16_spec data / 256, crc16_spec data % 256] := by
  refine ⟨by decide, by decide, fun data => ?_⟩
  unfold crc16_xmodem crc16_spec
  have h : data.foldl crcByte 0 = data.foldl crcSpecByte 0 := by
    have : crcByte = crcSpecByte := funext fun c => funext fun b => crcByte_eq_spec c b
    rw [this]
  simp [h]

/-! ## Packet codec theorems -/

theorem buildPayload_ok (params : List (Nat × List Nat))
    (hf : ∀ f ∈ params, f.1 ≤ 255 ∧ f.2.length ≤ 255) :
    buildPayload params = .ok (serializeFields params) := by
  induction params with
  | nil => rfl
  | cons f rest ih =>
    obtain ⟨t, v⟩ := f
    have hft := (hf (t, v) (List.mem_cons_self _ _)).1
    have hfv := (hf (t, v) (List.mem_cons_self _ _)).2
    have ihr := ih fun g hg => hf g (List.mem_cons_of_mem _ hg)
    simp only [buildPayload, if_pos hft, if_pos hfv, ihr, serializeFields, serializeField]

/-- C2 counterexample: the spec's example bytes are wrong.  The battery
query (`command_id = 0x0108`, three empty fields) does not encode with a
declared length of `0x0006`: the code computes `length = 1 + 2 + 6 = 9`, so
the first twelve emitted bytes are `5A 00 09 00 01 08 01 00 02 00 03 00`,
not `5A 00 06 00 01 08 01 00 02 00 03 00`. -/
theorem send_packet_battery_length_counterexample :
    (encodePacket [0x01, 0x08] [(1, []), (2, []), (3, [])]).toOption.map (fun p => p.take 12)
      ≠ some [0x5A, 0x00, 0x06, 0x00, 0x01, 0x08, 0x01, 0x00, 0x02, 0x00, 0x03, 0x00] := by
  decide

/-- C2 (amended): for every 2-byte command id and fields with byte-sized
types and values of at most 255 bytes (and a total that fits the u16 length),
encoding emits the sync byte `0x5A`, the big-endian u16 length
`3 + total field bytes`, the reserved byte `0x00`, the command id, the
serialized fields, and the 2-byte checksum over all preceding bytes; the
battery query encodes to `5A 00 09 00 01 08 01 00 02 00 03 00` plus its
2-byte checksum. -/
theorem send_packet_format (cmd_id : List Nat) (params : List (Nat × List Nat))
    (hf : ∀ f ∈ params, f.1 ≤ 255 ∧ f.2.length ≤ 255)
    (hlen : 3 + (serializeFields params).length ≤ 65535) :
    encodePacket cmd_id params =
      .ok (([0x5A] ++ beU16 (3 + (serializeFields params).length) ++ [0x00] ++ cmd_id
          ++ serializeFields params)
        ++ crc16_xmodem ([0x5A] ++ beU16 (3 + (serializeFields params).length) ++ [0x00]
          ++ cmd_id ++ serializeFields params))
  ∧ encodePacket [0x01, 0x08] [(1, []), (2, []), (3, [])]
      = .ok ([0x5A, 0x00, 0x09, 0x00, 0x01, 0x08, 0x01, 0x00, 0x02, 0x00, 0x03, 0x00]
          ++ crc16_xmodem [0x5A, 0x00, 0x09, 0x00, 0x01, 0x08, 0x01, 0x00, 0x02, 0x00, 0x03, 0x00]) := by
  constructor
  · have h := buildPayload_ok params hf
    simp only [encodePacket, h]
    rw [if_pos (by omega : 1 + 2 + (serializeFields params).length ≤ 65535)]
  · rfl

set_option maxRecDepth 8000 in
/-- Witness for C2: the amended theorem applied to the concrete battery
query, with the computed checksum `FB B9`. -/
theorem send_packet_format_witness :
    encodePacket [0x01, 0x08] [(1, []), (2, []), (3, [])]
      = .ok [0x5A, 0x00, 0x09, 0x00, 0x01, 0x08, 0x01, 0x00, 0x02, 0x00, 0x03,
             0x00, 0xFB, 0xB9] := by
  have h := (send_packet_format [0x01, 0x08] [(1, []), (2, []), (3, [])]
    (by decide) (by decide)).2
  rw [h]
  rfl

/-- `getD` agrees on `take n` below the cut. -/
theorem getD_take_lt (l : List Nat) (i n : Nat) (h : i < n) :
    (l.take n).getD i 0 = l.getD i 0 := by
  rw [List.getD_eq_getElem?_getD, List.getD_eq_getElem?_getD, List.getElem?_take_of_lt h]

theorem receive_none_of_bad_header (buf : List Nat)
    (h : buf.length < 4 ∨ buf.getD 0 0 ≠ 0x5A) :
    receive_packet buf = none := by
  unfold receive_packet
  rcases h with h | h
  · rw [if_pos]
    left
    simp [List.length_take]
    omega
  · rw [if_pos]
    right
    rwa [getD_take_lt buf 0 4 (by omega)]

theorem receive_none_of_incomplete (buf : List Nat)
    (hlen : buf.length < 4 + (buf.getD 1 0 * 256 + buf.getD 2 0 + 2 - 1)) :
    receive_packet buf = none := by
  unfold receive_packet
  by_cases hbad : (buf.take 4).length < 4 ∨ (buf.take 4).getD 0 0 ≠ 0x5A
  · rw [if_pos hbad]
  · rw [if_neg hbad]
    rw [getD_take_lt buf 1 4 (by omega), getD_take_lt buf 2 4 (by omega)]
    rw [if_pos]
    simp only [List.length_take, List.length_drop]
    omega

theorem receive_some_of_complete (buf : List Nat)
    (h4 : 4 ≤ buf.length) (h5A : buf.getD 0 0 = 0x5A)
    (hlen : 4 + (buf.getD 1 0 * 256 + buf.getD 2 0 + 2 - 1) ≤ buf.length) :
    receive_packet buf
      = some (buf.take (4 + (buf.getD 1 0 * 256 + buf.getD 2 0 + 2 - 1))) := by
  unfold receive_packet
  rw [if_neg]
  · rw [getD_take_lt buf 1 4 (by omega), getD_take_lt buf 2 4 (by omega)]
    rw [if_neg]
    · rw [← List.take_add]
    · simp only [List.length_take, List.length_drop]
      omega
  · push_neg
    constructor
    · simp [List.length_take]
      omega
    · rwa [getD_take_lt buf 0 4 (by omega)]

theorem tlvWalk_serialized (params : List (Nat × List Nat)) (pre suffix : List Nat)
    (hsuf : suffix.length = 2) :
    tlvWalk (pre ++ serializeFields params ++ suffix) pre.length = params := by
  induction params generalizing pre with
  | nil =>
    have hlen : (pre ++ serializeFields [] ++ suffix).length = pre.length + 2 := by
      simp [serializeFields, hsuf]
    rw [tlvWalk, dif_neg (by omega)]
  | cons f rest ih =>
    obtain ⟨t, v⟩ := f
    have hdata : pre ++ serializeFields ((t, v) :: rest) ++ suffix
        = pre ++ ([t, v.length] ++ (v ++ (serializeFields rest ++ suffix))) := by
      simp [serializeFields, serializeField]
    have hlen : (pre ++ serializeFields ((t, v) :: rest) ++ suffix).length
        = pre.length + 2 + v.length + (serializeFields rest).length + 2 := by
      rw [hdata]
      simp [hsuf]
      omega
    have ht : (pre ++ serializeFields ((t, v) :: rest) ++ suffix).getD pre.length 0 = t := by
      rw [hdata, List.getD_append_right pre _ 0 pre.length (le_refl _)]
      simp
    have hl : (pre ++ serializeFields ((t, v) :: rest) ++ suffix).getD (pre.length + 1) 0
        = v.length := by
      rw [hdata, List.getD_append_right pre _ 0 (pre.length + 1) (by omega)]
      simp
    have hv : ((pre ++ serializeFields ((t, v) :: rest) ++ suffix).drop
        (pre.length + 2)).take v.length = v := by
      rw [hdata, List.drop_append 2]
      simp [List.take_left]
    rw [tlvWalk, dif_pos (by omega)]
    simp only [ht, hl, hv, List.cons.injEq, true_and]
    have hform : (pre ++ [t, v.length] ++ v) ++ serializeFields rest ++ suffix
        = pre ++ serializeFields ((t, v) :: rest) ++ suffix := by
      simp [serializeFields, serializeField]
    have hlen2 : (pre ++ [t, v.length] ++ v).length = pre.length + 2 + v.length := by
      simp
      omega
    rw [← hform, ← hlen2]
    exact ih (pre ++ [t, v.length] ++ v)

theorem crc16_length (d : List Nat) : (crc16_xmodem d).length = 2 := by
  simp [crc16_xmodem]

theorem receive_encoded (a b c1 c2 : Nat) (ser crc : List Nat)
    (hcrc : crc.length = 2)
    (hab : a * 256 + b = 1 + 2 + ser.length) :
    receive_packet ([90, a, b, 0, c1, c2] ++ ser ++ crc)
        = some ([90, a, b, 0, c1, c2] ++ ser ++ crc)
  ∧ (([90, a, b, 0, c1, c2] ++ ser ++ crc).drop 4).take 2 = [c1, c2]
  ∧ ([90, a, b, 0, c1, c2] ++ ser ++ crc).getD 1 0 * 256
      + ([90, a, b, 0, c1, c2] ++ ser ++ crc).getD 2 0 = 1 + 2 + ser.length := by
  have hcons : [90, a, b, 0, c1, c2] ++ ser ++ crc
      = 90 :: a :: b :: 0 :: c1 :: c2 :: (ser ++ crc) := by simp
  have hlen : ([90, a, b, 0, c1, c2] ++ ser ++ crc).length = 8 + ser.length := by
    simp [hcrc]
    omega
  have hg0 : ([90, a, b, 0, c1, c2] ++ ser ++ crc).getD 0 0 = 90 := by
    rw [hcons]
    simp [List.getD]
  have hg1 : ([90, a, b, 0, c1, c2] ++ ser ++ crc).getD 1 0 = a := by
    rw [hcons]
    simp [List.getD]
  have hg2 : ([90, a, b, 0, c1, c2] ++ ser ++ crc).getD 2 0 = b := by
    rw [hcons]
    simp [List.getD]
  refine ⟨?_, ?_, ?_⟩
  · rw [receive_some_of_complete _ (by omega) hg0 (by rw [hg1, hg2]; omega)]
    congr 1
    apply List.take_of_length_le
    rw [hg1, hg2, hlen]
    omega
  · rw [hcons]
    simp
  · rw [hg1, hg2]
    omega

/-- C3: for every 2-byte command id and every field list with byte-sized
types and values of at most 255 bytes, when encoding succeeds the decoder
recovers the whole encoded packet from the stream, the command id read at
bytes 4–5 is the original one, the TLV walk of the payload region gives back
the original field list, and the declared big-endian length field equals the
byte length of reserved byte + command id + serialized fields. -/
theorem codec_round_trip (cmd_id : List Nat) (params : List (Nat × List Nat)) (pkt : List Nat)
    (hcmd : cmd_id.length = 2)
    (hf : ∀ f ∈ params, f.1 ≤ 255 ∧ f.2.length ≤ 255)
    (henc : encodePacket cmd_id params = Except.ok pkt) :
    receive_packet pkt = some pkt
  ∧ (pkt.drop 4).take 2 = cmd_id
  ∧ tlvWalk pkt 6 = params
  ∧ pkt.getD 1 0 * 256 + pkt.getD 2 0 = 1 + 2 + (serializeFields params).length := by
  have hser := buildPayload_ok params hf
  simp only [encodePacket, hser] at henc
  by_cases hlen : 1 + 2 + (serializeFields params).length ≤ 65535
  swap
  · rw [if_neg hlen] at henc
    exact absurd henc (by simp)
  rw [if_pos hlen] at henc
  obtain ⟨c1, c2, rfl⟩ := List.length_eq_two.mp hcmd
  have hpkt := (Except.ok.inj henc).symm
  subst hpkt
  have hE : ∀ tail : List Nat,
      [90] ++ beU16 (1 + 2 + (serializeFields params).length) ++ [0] ++ [c1, c2] ++ tail
        = [90, (1 + 2 + (serializeFields params).length) / 256,
           (1 + 2 + (serializeFields params).length) % 256, 0, c1, c2] ++ tail := by
    intro tail
    simp [beU16]
  rw [hE]
  have key := receive_encoded ((1 + 2 + (serializeFields params).length) / 256)
    ((1 + 2 + (serializeFields params).length) % 256) c1 c2 (serializeFields params)
    (crc16_xmodem ([90, (1 + 2 + (serializeFields params).length) / 256,
        (1 + 2 + (serializeFields params).length) % 256, 0, c1, c2] ++ serializeFields params))
    (crc16_length _) (by omega)
  refine ⟨key.1, key.2.1, ?_, key.2.2⟩
  exact tlvWalk_serialized params
    [90, (1 + 2 + (serializeFields params).length) / 256,
     (1 + 2 + (serializeFields params).length) % 256, 0, c1, c2] _ (crc16_length _)

set_option maxRecDepth 8000 in
/-- Witness for C3: the round trip at the concrete battery query packet. -/
theorem codec_round_trip_witness :
    receive_packet [0x5A, 0x00, 0x09, 0x00, 0x01, 0x08, 0x01, 0x00, 0x02, 0x00,
        0x03, 0x00, 0xFB, 0xB9]
      = some [0x5A, 0x00, 0x09, 0x00, 0x01, 0x08, 0x01, 0x00, 0x02, 0x00,
        0x03, 0x00, 0xFB, 0xB9]
  ∧ tlvWalk [0x5A, 0x00, 0x09, 0x00, 0x01, 0x08, 0x01, 0x00, 0x02, 0x00,
        0x03, 0x00, 0xFB, 0xB9] 6 = [(1, []), (2, []), (3, [])] := by
  have h := codec_round_trip [0x01, 0x08] [(1, []), (2, []), (3, [])]
    [0x5A, 0x00, 0x09, 0x00, 0x01, 0x08, 0x01, 0x00, 0x02, 0x00, 0x03, 0x00, 0xFB, 0xB9]
    (by decide) (by decide) (by rfl)
  exact ⟨h.1, h.2.2.1⟩

/-- C4: decoding an incoming byte stream is total and returns `None` when
the first byte is not `0x5A`, when fewer than 4 header bytes are available,
or when fewer than `declared_length - 1 + 2` further body-plus-checksum
bytes arrive (in Python's integer arithmetic that count is
`declared_length + 1`, written `declared_length + 2 - 1` below); on a
complete read it returns the packet bytes, the header plus exactly
`declared_length - 1 + 2` further bytes. -/
theorem receive_packet_spec (buf : List Nat) :
    (buf.length < 4 ∨ buf.getD 0 0 ≠ 0x5A → receive_packet buf = none)
  ∧ (4 ≤ buf.length → buf.getD 0 0 = 0x5A →
      buf.length < 4 + (buf.getD 1 0 * 256 + buf.getD 2 0 + 2 - 1) →
      receive_packet buf = none)
  ∧ (4 ≤ buf.length → buf.getD 0 0 = 0x5A →
      4 + (buf.getD 1 0 * 256 + buf.getD 2 0 + 2 - 1) ≤ buf.length →
      receive_packet buf
        = some (buf.take (4 + (buf.getD 1 0 * 256 + buf.getD 2 0 + 2 - 1)))) :=
  ⟨receive_none_of_bad_header buf,
   fun _ _ h => receive_none_of_incomplete buf h,
   fun h4 h5A hlen => receive_some_of_complete buf h4 h5A hlen⟩

/-- Witness for C4: a bad sync byte, a truncated body, and a complete
packet. -/
theorem receive_packet_spec_witness :
    receive_packet [0x12, 0x34] = none
  ∧ receive_packet [0x5A, 0x00, 0x03, 0x00, 0x01] = none
  ∧ receive_packet [0x5A, 0x00, 0x03, 0x00, 0x01, 0x08, 0xAA, 0xBB]
      = some [0x5A, 0x00, 0x03, 0x00, 0x01, 0x08, 0xAA, 0xBB] := by
  refine ⟨(receive_packet_spec [0x12, 0x34]).1 (Or.inl (by decide)),
    (receive_packet_spec [0x5A, 0x00, 0x03, 0x00, 0x01]).2.1
      (by decide) (by decide) (by decide), ?_⟩
  have h := (receive_packet_spec [0x5A, 0x00, 0x03, 0x00, 0x01, 0x08, 0xAA, 0xBB]).2.2
    (by decide) (by decide) (by decide)
  rw [h]
  rfl

/-- C8: a field list containing a value longer than 255 bytes (all field
types being bytes) makes encoding fail with the field-too-large error, and
`send_packet` leaves the transport untouched: nothing is appended to the
sent packets, whatever the session state. -/
theorem send_packet_field_too_large (cmd_id : List Nat)
    (params : List (Nat × List Nat))
    (htypes : ∀ f ∈ params, f.1 ≤ 255)
    (hbig : ∃ f ∈ params, 255 < f.2.length) :
    encodePacket cmd_id params = .error .fieldTooLarge
  ∧ ∀ st : SessionState, (send_packet st cmd_id params).2 = st := by
  have hpay : buildPayload params = .error .fieldTooLarge := by
    induction params with
    | nil => simp at hbig
    | cons f rest ih =>
      obtain ⟨t, v⟩ := f
      rcases hbig with ⟨g, hg, hglen⟩
      rcases List.mem_cons.mp hg with rfl | hgrest
      · simp only at hglen
        simp only [buildPayload, if_pos (htypes (t, v) (List.mem_cons_self _ _)),
          if_neg (by omega : ¬ v.length ≤ 255)]
      · have := ih (fun f hf => htypes f (List.mem_cons_of_mem _ hf)) ⟨g, hgrest, hglen⟩
        simp only [buildPayload, this,
          if_pos (htypes (t, v) (List.mem_cons_self _ _))]
        split <;> rfl
  have henc : encodePacket cmd_id params = .error .fieldTooLarge := by
    simp only [encodePacket, hpay]
  refine ⟨henc, fun st => ?_⟩
  unfold send_packet
  split
  · rfl
  · rw [henc]

set_option maxRecDepth 8000 in
/-- Witness for C8: a single 256-byte field value. -/
theorem send_packet_field_too_large_witness :
    encodePacket [0x01, 0x08] [(1, List.replicate 256 0)] = .error .fieldTooLarge := by
  exact (send_packet_field_too_large [0x01, 0x08] [(1, List.replicate 256 0)]
    (by decide) ⟨(1, List.replicate 256 0), List.mem_cons_self _ _,
      by simp [List.length_replicate]⟩).1

/-- C9: when the session is not connected, both `send_packet` and
`receive_packet` raise the not-connected exception and leave the session
state (sent packets and incoming buffer alike) unchanged. -/
theorem not_connected_no_io (st : SessionState) (cmd_id : List Nat)
    (params : List (Nat × List Nat)) (h : st.connected = false) :
    send_packet st cmd_id params = (.error .notConnected, st)
  ∧ receive_packetS st = (.error .notConnected, st) := by
  constructor
  · unfold send_packet
    rw [if_pos h]
  · unfold receive_packetS
    rw [if_pos h]

/-- Witness for C9: the freshly constructed session. -/
theorem not_connected_no_io_witness :
    send_packet ⟨false, [], []⟩ [0x01, 0x08] [] = (.error .notConnected, ⟨false, [], []⟩)
  ∧ receive_packetS ⟨false, [], []⟩ = (.error .notConnected, ⟨false, [], []⟩) :=
  not_connected_no_io ⟨false, [], []⟩ [0x01, 0x08] [] (by decide)

/-! ## Battery response parsing theorems -/

theorem batteryStep_cases (res : BatteryRes) (t : Nat) (v : List Nat) :
    (if t = 2 then
       if v.length ≥ 3 then
         { (if t = 1 then { res with globalLevel := some (beNat v) } else res) with
           left := some (v.getD 0 0), right := some (v.getD 1 0),
           caseBox := some (v.getD 2 0) }
       else (if t = 1 then { res with globalLevel := some (beNat v) } else res)
     else (if t = 1 then { res with globalLevel := some (beNat v) } else res))
    = batteryStep res (t, v) := by
  unfold batteryStep
  by_cases ht2 : t = 2
  · subst ht2
    by_cases hv : v.length ≥ 3 <;> simp [hv]
  · by_cases ht1 : t = 1 <;> simp [ht1, ht2]

theorem parseBatteryLoop_eq_fold (data : List Nat) (idx : Nat) (res : BatteryRes) :
    parseBatteryLoop data idx res = (tlvWalk data idx).foldl batteryStep res := by
  have H : ∀ n idx res, data.length - idx ≤ n →
      parseBatteryLoop data idx res = (tlvWalk data idx).foldl batteryStep res := by
    intro n
    induction n with
    | zero =>
      intro idx res h
      rw [parseBatteryLoop, tlvWalk, dif_neg (by omega), dif_neg (by omega)]
      rfl
    | succ n ih =>
      intro idx res h
      by_cases hc : idx < data.length - 2
      · rw [parseBatteryLoop, tlvWalk, dif_pos hc, dif_pos hc]
        simp only [List.foldl_cons]
        rw [batteryStep_cases]
        exact ih _ _ (by omega)
      · rw [parseBatteryLoop, tlvWalk, dif_neg hc, dif_neg hc]
        rfl
  exact H (data.length - idx) idx res (le_refl _)

theorem parseBatteryLoopChecked_eq (data : List Nat) (idx : Nat) (res : BatteryRes) :
    parseBatteryLoopChecked data idx res = some (parseBatteryLoop data idx res) := by
  have H : ∀ n idx res, data.length - idx ≤ n →
      parseBatteryLoopChecked data idx res = some (parseBatteryLoop data idx res) := by
    intro n
    induction n with
    | zero =>
      intro idx res h
      rw [parseBatteryLoopChecked, parseBatteryLoop, dif_neg (by omega), dif_neg (by omega)]
    | succ n ih =>
      intro idx res h
      by_cases hc : idx < data.length - 2
      · have hidx : idx < data.length := by omega
        have hidx1 : idx + 1 < data.length := by omega
        have e1 : data.get? idx = some (data.getD idx 0) := by
          rw [List.get?_eq_getElem?, List.getElem?_eq_getElem hidx,
            List.getD_eq_getElem _ _ hidx]
        have e2 : data.get? (idx + 1) = some (data.getD (idx + 1) 0) := by
          rw [List.get?_eq_getElem?, List.getElem?_eq_getElem hidx1,
            List.getD_eq_getElem _ _ hidx1]
        rw [parseBatteryLoopChecked, parseBatteryLoop, dif_pos hc, dif_pos hc, e1, e2]
        simp only
        by_cases ht2 : data.getD idx 0 = 2
        · rw [if_pos ht2, if_pos ht2]
          by_cases hv : ((data.drop (idx + 2)).take (data.getD (idx + 1) 0)).length ≥ 3
          · have hv0 : 0 < ((data.drop (idx + 2)).take (data.getD (idx + 1) 0)).length := by
              omega
            have hv1 : 1 < ((data.drop (idx + 2)).take (data.getD (idx + 1) 0)).length := by
              omega
            have hv2 : 2 < ((data.drop (idx + 2)).take (data.getD (idx + 1) 0)).length := by
              omega
            rw [if_pos hv, if_pos hv]
            rw [List.get?_eq_getElem?, List.getElem?_eq_getElem hv0,
              List.get?_eq_getElem?, List.getElem?_eq_getElem hv1,
              List.get?_eq_getElem?, List.getElem?_eq_getElem hv2,
              List.getD_eq_getElem _ _ hv0, List.getD_eq_getElem _ _ hv1,
              List.getD_eq_getElem _ _ hv2]
            simp only
            exact ih _ _ (by omega)
          · rw [if_neg hv, if_neg hv]
            simp only
            exact ih _ _ (by omega)
        · rw [if_neg ht2, if_neg ht2]
          simp only
          exact ih _ _ (by omega)
      · rw [parseBatteryLoopChecked, parseBatteryLoop, dif_neg hc, dif_neg hc]
  exact H (data.length - idx) idx res (le_refl _)

theorem tlvWalk_steps_le (data : List Nat) (idx : Nat) :
    2 * (tlvWalk data idx).length ≤ data.length - idx := by
  have H : ∀ n idx, data.length - idx ≤ n →
      2 * (tlvWalk data idx).length ≤ data.length - idx := by
    intro n
    induction n with
    | zero =>
      intro idx h
      rw [tlvWalk, dif_neg (by omega)]
      simp
    | succ n ih =>
      intro idx h
      by_cases hc : idx < data.length - 2
      · rw [tlvWalk, dif_pos hc]
        have := ih (idx + 2 + data.getD (idx + 1) 0) (by omega)
        simp only [List.length_cons]
        omega
      · rw [tlvWalk, dif_neg hc]
        simp
  exact H (data.length - idx) idx (le_refl _)

theorem foldl_batteryStep_id (fields : List (Nat × List Nat)) (res : BatteryRes)
    (h : ∀ f ∈ fields, f.1 ≠ 1 ∧ ¬ (f.1 = 2 ∧ f.2.length ≥ 3)) :
    fields.foldl batteryStep res = res := by
  induction fields generalizing res with
  | nil => rfl
  | cons f rest ih =>
    have hf := h f (List.mem_cons_self _ _)
    have hstep : batteryStep res f = res := by
      unfold batteryStep
      rw [if_neg hf.1, if_neg hf.2]
    rw [List.foldl_cons, hstep]
    exact ih res fun g hg => h g (List.mem_cons_of_mem _ hg)

/-- C5 counterexample: an 8-plus-byte response lacking recognizable fields
(here a single field of unknown type 9) does not parse to `None`: the code
returns the empty dictionary, a falsy value but not `None`. -/
theorem parse_battery_empty_counterexample :
    parse_battery_response [0x5A, 0x00, 0x05, 0x00, 0x01, 0x08, 9, 0, 0xAA, 0xBB]
      = some { globalLevel := none, left := none, right := none, caseBox := none }
  ∧ parse_battery_response [0x5A, 0x00, 0x05, 0x00, 0x01, 0x08, 9, 0, 0xAA, 0xBB]
      ≠ none := by
  constructor
  · simp [parse_battery_response, parseBatteryLoop]
  · simp [parse_battery_response]

/-- C5 (amended): battery-response parsing walks the TLV fields of the
payload: a type-1 field yields the aggregate global value as a big-endian
integer over the field's value bytes, a type-2 field with at least 3 value
bytes yields left, right, case from the first three value bytes, unknown
types are ignored; a response of at least 8 bytes lacking recognizable
fields yields the empty reading (all fields absent — falsy for the caller
but not `None`), and only inputs shorter than 8 bytes yield `None`; the
payload with field `(type=2, value=[55,60,80])` parses to left 55,
right 60, case 80. -/
theorem parse_battery_response_spec (data : List Nat) :
    (8 ≤ data.length →
      parse_battery_response data = some ((tlvWalk data 6).foldl batteryStep {}))
  ∧ (data.length < 8 → parse_battery_response data = none)
  ∧ (8 ≤ data.length →
      (∀ f ∈ tlvWalk data 6, f.1 ≠ 1 ∧ ¬ (f.1 = 2 ∧ f.2.length ≥ 3)) →
      parse_battery_response data
        = some { globalLevel := none, left := none, right := none, caseBox := none })
  ∧ parse_battery_response
        [0x5A, 0x00, 0x08, 0x00, 0x01, 0x08, 2, 3, 55, 60, 80, 0xAA, 0xBB]
      = some { globalLevel := none, left := some 55, right := some 60,
               caseBox := some 80 } := by
  refine ⟨fun h8 => ?_, fun h8 => ?_, fun h8 hunrec => ?_, ?_⟩
  · unfold parse_battery_response
    rw [if_neg (by omega), parseBatteryLoop_eq_fold]
  · unfold parse_battery_response
    rw [if_pos h8]
  · unfold parse_battery_response
    rw [if_neg (by omega), parseBatteryLoop_eq_fold, foldl_batteryStep_id _ _ hunrec]
  · simp [parse_battery_response, parseBatteryLoop]

/-- Witness for C5: a type-1 field giving a global value of 99, and a
7-byte input giving `None`. -/
theorem parse_battery_response_spec_witness :
    parse_battery_response [0x5A, 0x00, 0x05, 0x00, 0x01, 0x08, 1, 1, 99, 0xAA, 0xBB]
      = some { globalLevel := some 99, left := none, right := none, caseBox := none }
  ∧ parse_battery_response [1, 2, 3] = none := by
  constructor
  · have h := (parse_battery_response_spec
      [0x5A, 0x00, 0x05, 0x00, 0x01, 0x08, 1, 1, 99, 0xAA, 0xBB]).1 (by decide)
    rw [h]
    simp [tlvWalk, batteryStep, beNat]
  · exact (parse_battery_response_spec [1, 2, 3]).2.1 (by decide)

/-- C10: battery-response parsing is total and in-bounds on every input:
inputs shorter than 8 bytes give `None`; the checked variant, in which every
index access is explicit and failing, never fails (no out-of-range access);
the TLV walk consumes at least 2 bytes per field, so it makes at most
`(len - idx) / 2` steps from position `idx`; a field whose declared length
overruns the data yields the truncated value, as in the concrete 11-byte
input below whose declared field length 10 is cut to the 3 available
bytes. -/
theorem parse_battery_total_safe (data : List Nat) :
    (data.length < 8 → parse_battery_response data = none)
  ∧ parseBatteryChecked data = some (parse_battery_response data)
  ∧ (∀ idx, 2 * (tlvWalk data idx).length ≤ data.length - idx)
  ∧ parse_battery_response [0x5A, 0x00, 0x05, 0x00, 0x01, 0x08, 1, 10, 99, 0, 0]
      = some { globalLevel := some (beNat [99, 0, 0]), left := none, right := none,
               caseBox := none } := by
  refine ⟨fun h8 => ?_, ?_, fun idx => tlvWalk_steps_le data idx, ?_⟩
  · unfold parse_battery_response
    rw [if_pos h8]
  · unfold parseBatteryChecked parse_battery_response
    split
    · rfl
    · rw [parseBatteryLoopChecked_eq]
      rfl
  · simp [parse_battery_response, parseBatteryLoop, beNat]

/-- Witness for C10: a 7-byte input parses to `None`. -/
theorem parse_battery_total_safe_witness :
    parse_battery_response [1, 2, 3, 4, 5, 6, 7] = none :=
  (parse_battery_total_safe [1, 2, 3, 4, 5, 6, 7]).1 (by decide)

/-! ## Broadcast battery heuristic theorems -/

theorem findWindow_not_allowed (cid : Nat) (d : List Nat)
    (hcid : ¬ (cid = 0x0156 ∨ cid = 0x025D)) (i : Nat) :
    findWindow cid d i = none := by
  have H : ∀ n i, d.length - i ≤ n → findWindow cid d i = none := by
    intro n
    induction n with
    | zero =>
      intro i h
      rw [findWindow, dif_neg (by omega)]
    | succ n ih =>
      intro i h
      by_cases hc : i < d.length - 2
      · rw [findWindow, dif_pos hc]
        simp only
        by_cases hacc :
            acceptWindow (d.getD i 0) (d.getD (i + 1) 0) (d.getD (i + 2) 0) = true
        · rw [if_pos hacc, if_neg hcid]
          exact ih (i + 1) (by omega)
        · rw [if_neg hacc]
          exact ih (i + 1) (by omega)
      · rw [findWindow, dif_neg hc]
  exact H (d.length - i) i (le_refl _)

theorem findWindow_allowed (cid : Nat) (d : List Nat)
    (hcid : cid = 0x0156 ∨ cid = 0x025D) (i : Nat) :
    findWindow cid d i
      = (List.range' i (d.length - 2 - i)).findSome? (fun j =>
          if acceptWindow (d.getD j 0) (d.getD (j + 1) 0) (d.getD (j + 2) 0) then
            some (d.getD j 0, d.getD (j + 1) 0, d.getD (j + 2) 0)
          else none) := by
  have H : ∀ n i, d.length - i ≤ n → findWindow cid d i
      = (List.range' i (d.length - 2 - i)).findSome? (fun j =>
          if acceptWindow (d.getD j 0) (d.getD (j + 1) 0) (d.getD (j + 2) 0) then
            some (d.getD j 0, d.getD (j + 1) 0, d.getD (j + 2) 0)
          else none) := by
    intro n
    induction n with
    | zero =>
      intro i h
      rw [findWindow, dif_neg (by omega), show d.length - 2 - i = 0 by omega]
      rfl
    | succ n ih =>
      intro i h
      by_cases hc : i < d.length - 2
      · rw [findWindow, dif_pos hc,
          show d.length - 2 - i = (d.length - 2 - (i + 1)) + 1 by omega,
          List.range'_succ, List.findSome?_cons]
        simp only
        by_cases hacc :
            acceptWindow (d.getD i 0) (d.getD (i + 1) 0) (d.getD (i + 2) 0) = true
        · rw [if_pos hacc, if_pos hcid, if_pos hacc]
        · rw [if_neg hacc, if_neg hacc]
          exact ih (i + 1) (by omega)
      · rw [findWindow, dif_neg hc, show d.length - 2 - i = 0 by omega]
        rfl
  exact H (d.length - i) i (le_refl _)

/-- C6: for a manufacturer-data entry `(cid, data)`: a payload shorter than
7 bytes yields no reading; a manufacturer id outside the allow-list
`{0x0156, 0x025D}` yields no reading; for an allow-listed id the result is
the accepted window at the lowest index; a window is accepted exactly when
each of its three bytes is in 0–100 or is 255 and at least one is in 0–100 —
so an all-255 window and a window containing 150 are rejected. -/
theorem parse_battery_from_adv_spec (cid : Nat) (data : List Nat) :
    (data.length < 7 → parse_battery_from_adv [(cid, data)] = none)
  ∧ (¬ (cid = 0x0156 ∨ cid = 0x025D) → parse_battery_from_adv [(cid, data)] = none)
  ∧ ((cid = 0x0156 ∨ cid = 0x025D) → 7 ≤ data.length →
      parse_battery_from_adv [(cid, data)] = firstAcceptedWindow data)
  ∧ (∀ a b c, acceptWindow a b c = true ↔ windowAcceptable a b c)
  ∧ acceptWindow 255 255 255 = false
  ∧ acceptWindow 150 60 80 = false := by
  refine ⟨fun h7 => ?_, fun hcid => ?_, fun hcid h7 => ?_, fun a b c => ?_, by decide, by decide⟩
  · unfold parse_battery_from_adv
    rw [if_pos h7]
    rfl
  · unfold parse_battery_from_adv
    by_cases h7 : data.length < 7
    · rw [if_pos h7]
      rfl
    · rw [if_neg h7, findWindow_not_allowed cid data hcid 0]
      rfl
  · unfold parse_battery_from_adv
    rw [if_neg (by omega), findWindow_allowed cid data hcid 0, Nat.sub_zero]
    unfold firstAcceptedWindow
    rw [List.range_eq_range']
    cases hX : (List.range' 0 (data.length - 2)).findSome? (fun j =>
        if acceptWindow (data.getD j 0) (data.getD (j + 1) 0) (data.getD (j + 2) 0) then
          some (data.getD j 0, data.getD (j + 1) 0, data.getD (j + 2) 0)
        else none) <;> rfl
  · simp only [acceptWindow, validBatteryVal, windowAcceptable, Bool.and_eq_true,
      Bool.or_eq_true, decide_eq_true_eq, beq_iff_eq]
    tauto

/-- Witness for C6: an allow-listed id accepts the window `(55, 60, 80)` at
offset 4, and the same payload from an unknown id yields nothing. -/
theorem parse_battery_from_adv_spec_witness :
    parse_battery_from_adv [(0x0156, [200, 201, 202, 203, 55, 60, 80, 7])]
      = some (55, 60, 80)
  ∧ parse_battery_from_adv [(0x1234, [200, 201, 202, 203, 55, 60, 80, 7])] = none := by
  constructor
  · have h := (parse_battery_from_adv_spec 0x0156
      [200, 201, 202, 203, 55, 60, 80, 7]).2.2.1 (Or.inl rfl) (by decide)
    rw [h]
    rfl
  · exact (parse_battery_from_adv_spec 0x1234
      [200, 201, 202, 203, 55, 60, 80, 7]).2.1 (by decide)


theorem hex_toUpper_upper {c : Char} (h : c ∈ hexChars) :
    Char.toUpper c ∈ upperHexChars := by
  fin_cases h <;> decide

theorem upper_toUpper {c : Char} (h : c ∈ upperHexChars) : Char.toUpper c = c := by
  fin_cases h <;> decide

theorem upper_not_sep {c : Char} (h : c ∈ upperHexChars) : notSeparator c = true := by
  fin_cases h <;> decide

theorem hex_not_sep {c : Char} (h : c ∈ hexChars) : notSeparator c = true := by
  fin_cases h <;> decide

theorem normalize_eq_of_clean {X c : List Char} (h : cleanAddress X = c) :
    normalize_address X = [joinSep ':' (chunk2 c), joinSep '-' (chunk2 c), c] := by
  unfold normalize_address
  rw [h]

theorem matcher_core
    (u1 u2 u3 u4 u5 u6 u7 u8 u9 u10 u11 u12 v1 v2 v3 v4 v5 v6 v7 v8 v9 v10 v11 v12 : Char)
    (hu : ∀ c ∈ ([u1, u2, u3, u4, u5, u6, u7, u8, u9, u10, u11, u12] : List Char), c ∈ upperHexChars)
    (hv : ∀ c ∈ ([v1, v2, v3, v4, v5, v6, v7, v8, v9, v10, v11, v12] : List Char), c ∈ upperHexChars) :
    (∀ F ∈ [joinSep ':' (chunk2 [u1, u2, u3, u4, u5, u6, u7, u8, u9, u10, u11, u12]), joinSep '-' (chunk2 [u1, u2, u3, u4, u5, u6, u7, u8, u9, u10, u11, u12]), [u1, u2, u3, u4, u5, u6, u7, u8, u9, u10, u11, u12]],
        cleanAddress F = [u1, u2, u3, u4, u5, u6, u7, u8, u9, u10, u11, u12])
  ∧ (∀ C ∈ [joinSep ':' (chunk2 [u1, u2, u3, u4, u5, u6, u7, u8, u9, u10, u11, u12]), joinSep '-' (chunk2 [u1, u2, u3, u4, u5, u6, u7, u8, u9, u10, u11, u12]), [u1, u2, u3, u4, u5, u6, u7, u8, u9, u10, u11, u12]],
      (C ∈ [joinSep ':' (chunk2 [v1, v2, v3, v4, v5, v6, v7, v8, v9, v10, v11, v12]), joinSep '-' (chunk2 [v1, v2, v3, v4, v5, v6, v7, v8, v9, v10, v11, v12]), [v1, v2, v3, v4, v5, v6, v7, v8, v9, v10, v11, v12]]
        ↔ ([v1, v2, v3, v4, v5, v6, v7, v8, v9, v10, v11, v12] : List Char) = [u1, u2, u3, u4, u5, u6, u7, u8, u9, u10, u11, u12])) := by
  simp only [List.forall_mem_cons] at hu hv
  obtain ⟨q1, q2, q3, q4, q5, q6, q7, q8, q9, q10, q11, q12, -⟩ := hu
  obtain ⟨r1, r2, r3, r4, r5, r6, r7, r8, r9, r10, r11, r12, -⟩ := hv
  have hcolU : joinSep ':' (chunk2 ([u1, u2, u3, u4, u5, u6, u7, u8, u9, u10, u11, u12] : List Char)) = [u1, u2, ':', u3, u4, ':', u5, u6, ':', u7, u8, ':', u9, u10, ':', u11, u12] := rfl
  have hhypU : joinSep '-' (chunk2 ([u1, u2, u3, u4, u5, u6, u7, u8, u9, u10, u11, u12] : List Char)) = [u1, u2, '-', u3, u4, '-', u5, u6, '-', u7, u8, '-', u9, u10, '-', u11, u12] := rfl
  have hcolV : joinSep ':' (chunk2 ([v1, v2, v3, v4, v5, v6, v7, v8, v9, v10, v11, v12] : List Char)) = [v1, v2, ':', v3, v4, ':', v5, v6, ':', v7, v8, ':', v9, v10, ':', v11, v12] := rfl
  have hhypV : joinSep '-' (chunk2 ([v1, v2, v3, v4, v5, v6, v7, v8, v9, v10, v11, v12] : List Char)) = [v1, v2, '-', v3, v4, '-', v5, v6, '-', v7, v8, '-', v9, v10, '-', v11, v12] := rfl
  rw [hcolU, hhypU, hcolV, hhypV]
  have hcleanColU : cleanAddress [u1, u2, ':', u3, u4, ':', u5, u6, ':', u7, u8, ':', u9, u10, ':', u11, u12] = [u1, u2, u3, u4, u5, u6, u7, u8, u9, u10, u11, u12] := by
    simp [cleanAddress, List.filter_cons, upper_not_sep q1, upper_not_sep q2, upper_not_sep q3, upper_not_sep q4, upper_not_sep q5, upper_not_sep q6, upper_not_sep q7, upper_not_sep q8, upper_not_sep q9, upper_not_sep q10, upper_not_sep q11, upper_not_sep q12,
      (show notSeparator ':' = false by decide), upper_toUpper q1, upper_toUpper q2, upper_toUpper q3, upper_toUpper q4, upper_toUpper q5, upper_toUpper q6, upper_toUpper q7, upper_toUpper q8, upper_toUpper q9, upper_toUpper q10, upper_toUpper q11, upper_toUpper q12]
  have hcleanHypU : cleanAddress [u1, u2, '-', u3, u4, '-', u5, u6, '-', u7, u8, '-', u9, u10, '-', u11, u12] = [u1, u2, u3, u4, u5, u6, u7, u8, u9, u10, u11, u12] := by
    simp [cleanAddress, List.filter_cons, upper_not_sep q1, upper_not_sep q2, upper_not_sep q3, upper_not_sep q4, upper_not_sep q5, upper_not_sep q6, upper_not_sep q7, upper_not_sep q8, upper_not_sep q9, upper_not_sep q10, upper_not_sep q11, upper_not_sep q12,
      (show notSeparator '-' = false by decide), upper_toUpper q1, upper_toUpper q2, upper_toUpper q3, upper_toUpper q4, upper_toUpper q5, upper_toUpper q6, upper_toUpper q7, upper_toUpper q8, upper_toUpper q9, upper_toUpper q10, upper_toUpper q11, upper_toUpper q12]
  have hcleanU : cleanAddress [u1, u2, u3, u4, u5, u6, u7, u8, u9, u10, u11, u12] = [u1, u2, u3, u4, u5, u6, u7, u8, u9, u10, u11, u12] := by
    simp [cleanAddress, List.filter_cons, upper_not_sep q1, upper_not_sep q2, upper_not_sep q3, upper_not_sep q4, upper_not_sep q5, upper_not_sep q6, upper_not_sep q7, upper_not_sep q8, upper_not_sep q9, upper_not_sep q10, upper_not_sep q11, upper_not_sep q12, upper_toUpper q1, upper_toUpper q2, upper_toUpper q3, upper_toUpper q4, upper_toUpper q5, upper_toUpper q6, upper_toUpper q7, upper_toUpper q8, upper_toUpper q9, upper_toUpper q10, upper_toUpper q11, upper_toUpper q12]
  constructor
  · intro F hF
    simp only [List.mem_cons, List.not_mem_nil, or_false] at hF
    rcases hF with rfl | rfl | rfl
    · exact hcleanColU
    · exact hcleanHypU
    · exact hcleanU
  · intro C hC
    simp only [List.mem_cons, List.not_mem_nil, or_false] at hC
    rcases hC with rfl | rfl | rfl
    · constructor
      · intro hmem
        simp only [List.mem_cons, List.not_mem_nil, or_false] at hmem
        rcases hmem with hEq | hEq | hEq
        · simp only [List.cons.injEq, eq_self_iff_true, true_and, and_true] at hEq
          obtain ⟨e1, e2, e3, e4, e5, e6, e7, e8, e9, e10, e11, e12⟩ := hEq
          subst e1 e2 e3 e4 e5 e6 e7 e8 e9 e10 e11 e12
          rfl
        · exact absurd (congrArg (fun l => l.getD 2 ' ') hEq) (show ¬((':' : Char) = '-') by decide)
        · exact absurd (congrArg List.length hEq) (show ¬((17 : Nat) = 12) by decide)
      · intro heq
        simp only [List.cons.injEq, eq_self_iff_true, true_and, and_true] at heq
        obtain ⟨e1, e2, e3, e4, e5, e6, e7, e8, e9, e10, e11, e12⟩ := heq
        subst e1 e2 e3 e4 e5 e6 e7 e8 e9 e10 e11 e12
        simp
    · constructor
      · intro hmem
        simp only [List.mem_cons, List.not_mem_nil, or_false] at hmem
        rcases hmem with hEq | hEq | hEq
        · exact absurd (congrArg (fun l => l.getD 2 ' ') hEq) (show ¬(('-' : Char) = ':') by decide)
        · simp only [List.cons.injEq, eq_self_iff_true, true_and, and_true] at hEq
          obtain ⟨e1, e2, e3, e4, e5, e6, e7, e8, e9, e10, e11, e12⟩ := hEq
          subst e1 e2 e3 e4 e5 e6 e7 e8 e9 e10 e11 e12
          rfl
        · exact absurd (congrArg List.length hEq) (show ¬((17 : Nat) = 12) by decide)
      · intro heq
        simp only [List.cons.injEq, eq_self_iff_true, true_and, and_true] at heq
        obtain ⟨e1, e2, e3, e4, e5, e6, e7, e8, e9, e10, e11, e12⟩ := heq
        subst e1 e2 e3 e4 e5 e6 e7 e8 e9 e10 e11 e12
        simp
    · constructor
      · intro hmem
        simp only [List.mem_cons, List.not_mem_nil, or_false] at hmem
        rcases hmem with hEq | hEq | hEq
        · exact absurd (congrArg List.length hEq) (show ¬((12 : Nat) = 17) by decide)
        · exact absurd (congrArg List.length hEq) (show ¬((12 : Nat) = 17) by decide)
        · simp only [List.cons.injEq, eq_self_iff_true, true_and, and_true] at hEq
          obtain ⟨e1, e2, e3, e4, e5, e6, e7, e8, e9, e10, e11, e12⟩ := hEq
          subst e1 e2 e3 e4 e5 e6 e7 e8 e9 e10 e11 e12
          rfl
      · intro heq
        simp only [List.cons.injEq, eq_self_iff_true, true_and, and_true] at heq
        obtain ⟨e1, e2, e3, e4, e5, e6, e7, e8, e9, e10, e11, e12⟩ := heq
        subst e1 e2 e3 e4 e5 e6 e7 e8 e9 e10 e11 e12
        simp


theorem twelve_ex {α : Type} (l : List α) (h : l.length = 12) :
    ∃ c1 c2 c3 c4 c5 c6 c7 c8 c9 c10 c11 c12,
      l = [c1, c2, c3, c4, c5, c6, c7, c8, c9, c10, c11, c12] := by
  obtain ⟨c1, l, rfl⟩ := List.exists_of_length_succ l (show l.length = 11 + 1 by omega)
  simp only [List.length_cons] at h
  obtain ⟨c2, l, rfl⟩ := List.exists_of_length_succ l (show l.length = 10 + 1 by omega)
  simp only [List.length_cons] at h
  obtain ⟨c3, l, rfl⟩ := List.exists_of_length_succ l (show l.length = 9 + 1 by omega)
  simp only [List.length_cons] at h
  obtain ⟨c4, l, rfl⟩ := List.exists_of_length_succ l (show l.length = 8 + 1 by omega)
  simp only [List.length_cons] at h
  obtain ⟨c5, l, rfl⟩ := List.exists_of_length_succ l (show l.length = 7 + 1 by omega)
  simp only [List.length_cons] at h
  obtain ⟨c6, l, rfl⟩ := List.exists_of_length_succ l (show l.length = 6 + 1 by omega)
  simp only [List.length_cons] at h
  obtain ⟨c7, l, rfl⟩ := List.exists_of_length_succ l (show l.length = 5 + 1 by omega)
  simp only [List.length_cons] at h
  obtain ⟨c8, l, rfl⟩ := List.exists_of_length_succ l (show l.length = 4 + 1 by omega)
  simp only [List.length_cons] at h
  obtain ⟨c9, l, rfl⟩ := List.exists_of_length_succ l (show l.length = 3 + 1 by omega)
  simp only [List.length_cons] at h
  obtain ⟨c10, l, rfl⟩ := List.exists_of_length_succ l (show l.length = 2 + 1 by omega)
  simp only [List.length_cons] at h
  obtain ⟨c11, l, rfl⟩ := List.exists_of_length_succ l (show l.length = 1 + 1 by omega)
  simp only [List.length_cons] at h
  obtain ⟨c12, l, rfl⟩ := List.exists_of_length_succ l (show l.length = 0 + 1 by omega)
  simp only [List.length_cons] at h
  have hnil : l = [] := List.length_eq_zero.mp (by omega)
  subst hnil
  exact ⟨c1, c2, c3, c4, c5, c6, c7, c8, c9, c10, c11, c12, rfl⟩

/-- C7: for a 12-hex-digit address, normalizing any of its three derived
forms (colon, hyphen, bare) gives the same result as normalizing the
address itself; and with any one of the three forms configured, the
matcher's address comparison accepts a 12-hex-digit device address exactly
when the two addresses have the same cleaned (bare uppercase) form. -/
theorem normalize_address_correct (A D : List Char)
    (hA12 : A.length = 12) (hAhex : ∀ c ∈ A, c ∈ hexChars)
    (hD12 : D.length = 12) (hDhex : ∀ c ∈ D, c ∈ hexChars) :
    (∀ F ∈ normalize_address A, normalize_address F = normalize_address A)
  ∧ (∀ C ∈ normalize_address A,
      (addressMatches [C] D = true ↔ cleanAddress D = cleanAddress A)) := by
  obtain ⟨a1, a2, a3, a4, a5, a6, a7, a8, a9, a10, a11, a12, rfl⟩ := twelve_ex A hA12
  obtain ⟨d1, d2, d3, d4, d5, d6, d7, d8, d9, d10, d11, d12, rfl⟩ := twelve_ex D hD12
  have p1 := hAhex a1 (by simp)
  have p2 := hAhex a2 (by simp)
  have p3 := hAhex a3 (by simp)
  have p4 := hAhex a4 (by simp)
  have p5 := hAhex a5 (by simp)
  have p6 := hAhex a6 (by simp)
  have p7 := hAhex a7 (by simp)
  have p8 := hAhex a8 (by simp)
  have p9 := hAhex a9 (by simp)
  have p10 := hAhex a10 (by simp)
  have p11 := hAhex a11 (by simp)
  have p12 := hAhex a12 (by simp)
  have s1 := hDhex d1 (by simp)
  have s2 := hDhex d2 (by simp)
  have s3 := hDhex d3 (by simp)
  have s4 := hDhex d4 (by simp)
  have s5 := hDhex d5 (by simp)
  have s6 := hDhex d6 (by simp)
  have s7 := hDhex d7 (by simp)
  have s8 := hDhex d8 (by simp)
  have s9 := hDhex d9 (by simp)
  have s10 := hDhex d10 (by simp)
  have s11 := hDhex d11 (by simp)
  have s12 := hDhex d12 (by simp)
  have hcleanA : cleanAddress [a1, a2, a3, a4, a5, a6, a7, a8, a9, a10, a11, a12] = [Char.toUpper a1, Char.toUpper a2, Char.toUpper a3, Char.toUpper a4, Char.toUpper a5, Char.toUpper a6, Char.toUpper a7, Char.toUpper a8, Char.toUpper a9, Char.toUpper a10, Char.toUpper a11, Char.toUpper a12] := by
    simp [cleanAddress, List.filter_cons, hex_not_sep p1, hex_not_sep p2, hex_not_sep p3, hex_not_sep p4, hex_not_sep p5, hex_not_sep p6, hex_not_sep p7, hex_not_sep p8, hex_not_sep p9, hex_not_sep p10, hex_not_sep p11, hex_not_sep p12]
  have hcleanD : cleanAddress [d1, d2, d3, d4, d5, d6, d7, d8, d9, d10, d11, d12] = [Char.toUpper d1, Char.toUpper d2, Char.toUpper d3, Char.toUpper d4, Char.toUpper d5, Char.toUpper d6, Char.toUpper d7, Char.toUpper d8, Char.toUpper d9, Char.toUpper d10, Char.toUpper d11, Char.toUpper d12] := by
    simp [cleanAddress, List.filter_cons, hex_not_sep s1, hex_not_sep s2, hex_not_sep s3, hex_not_sep s4, hex_not_sep s5, hex_not_sep s6, hex_not_sep s7, hex_not_sep s8, hex_not_sep s9, hex_not_sep s10, hex_not_sep s11, hex_not_sep s12]
  have core := matcher_core (Char.toUpper a1) (Char.toUpper a2) (Char.toUpper a3) (Char.toUpper a4) (Char.toUpper a5) (Char.toUpper a6) (Char.toUpper a7) (Char.toUpper a8) (Char.toUpper a9) (Char.toUpper a10) (Char.toUpper a11) (Char.toUpper a12) (Char.toUpper d1) (Char.toUpper d2) (Char.toUpper d3) (Char.toUpper d4) (Char.toUpper d5) (Char.toUpper d6) (Char.toUpper d7) (Char.toUpper d8) (Char.toUpper d9) (Char.toUpper d10) (Char.toUpper d11) (Char.toUpper d12)
    (by
      intro c hc
      simp only [List.mem_cons, List.not_mem_nil, or_false] at hc
      rcases hc with rfl | rfl | rfl | rfl | rfl | rfl | rfl | rfl | rfl | rfl | rfl | rfl
      exacts [hex_toUpper_upper p1, hex_toUpper_upper p2, hex_toUpper_upper p3, hex_toUpper_upper p4, hex_toUpper_upper p5, hex_toUpper_upper p6, hex_toUpper_upper p7, hex_toUpper_upper p8, hex_toUpper_upper p9, hex_toUpper_upper p10, hex_toUpper_upper p11, hex_toUpper_upper p12])
    (by
      intro c hc
      simp only [List.mem_cons, List.not_mem_nil, or_false] at hc
      rcases hc with rfl | rfl | rfl | rfl | rfl | rfl | rfl | rfl | rfl | rfl | rfl | rfl
      exacts [hex_toUpper_upper s1, hex_toUpper_upper s2, hex_toUpper_upper s3, hex_toUpper_upper s4, hex_toUpper_upper s5, hex_toUpper_upper s6, hex_toUpper_upper s7, hex_toUpper_upper s8, hex_toUpper_upper s9, hex_toUpper_upper s10, hex_toUpper_upper s11, hex_toUpper_upper s12])
  constructor
  · intro F hF
    rw [normalize_eq_of_clean hcleanA] at hF
    have hcF := core.1 F hF
    rw [normalize_eq_of_clean hcF, normalize_eq_of_clean hcleanA]
  · intro C hC
    rw [normalize_eq_of_clean hcleanA] at hC
    have hiff := core.2 C hC
    unfold addressMatches
    rw [normalize_eq_of_clean hcleanD]
    simp only [List.any_cons, List.any_nil, Bool.or_false]
    rw [hcleanD, hcleanA]
    constructor
    · intro hcont
      exact hiff.mp (List.elem_iff.mp hcont)
    · intro heq
      exact List.elem_iff.mpr (hiff.mpr heq)

/-- Witness for C7: the colon form of `90F644AAEE67` configured, matched
against the lowercase bare device address. -/
theorem normalize_address_correct_witness :
    addressMatches [['9', '0', ':', 'F', '6', ':', '4', '4', ':', 'A', 'A', ':',
        'E', 'E', ':', '6', '7']]
      ['9', '0', 'f', '6', '4', '4', 'a', 'a', 'e', 'e', '6', '7'] = true := by
  have h := (normalize_address_correct
      ['9', '0', 'F', '6', '4', '4', 'A', 'A', 'E', 'E', '6', '7']
      ['9', '0', 'f', '6', '4', '4', 'a', 'a', 'e', 'e', '6', '7']
      (by decide) (by decide) (by decide) (by decide)).2
    ['9', '0', ':', 'F', '6', ':', '4', '4', ':', 'A', 'A', ':', 'E', 'E', ':', '6', '7']
    (by decide)
  exact h.mpr (by decide)

end FreeBuds

